import Mathlib

/-!
Verification of the Cold Turkey CLI (`ctk`) suggestion-wizard and schedule
subsystem, shallowly embedded from the Rust sources:
`src/schedule.rs`, `src/convert.rs`, `src/blocksettings.rs`, `src/suggest.rs`,
`src/suggestdialog.rs`.
-/

/-- A naive time of day, as used by the code through chrono's `NaiveTime`:
only the `hour()` and `minute()` accessors are ever read by this program. -/
structure NaiveTime where
  hour : Nat
  minute : Nat
deriving DecidableEq, Repr

/-- `ScheduleBreak` from `src/schedule.rs`: no breaks, allowance, or pomodoro. -/
inductive ScheduleBreak where
  | nobreak : ScheduleBreak
  | allowance (allowance_minutes : Nat) : ScheduleBreak
  | pomodoro (lock_minutes : Nat) (break_minutes : Nat) : ScheduleBreak
deriving DecidableEq, Repr

/-- The `break_string` computation shared by the `Add` and `Edit` arms of
`schedule` (`src/schedule.rs` lines 212-219 and 283-290). -/
def breakString : ScheduleBreak → String
  | .nobreak => "none"
  | .allowance m => toString m
  | .pomodoro l b => toString l ++ "," ++ toString b

/-- `ScheduleBlock` from `src/schedule.rs`: id plus string-encoded start/end
times and break. -/
structure ScheduleBlock where
  id : Nat
  start_time : String
  end_time : String
  break_type : String
deriving DecidableEq, Repr

/-- The `start_string_end` / `end_string_end` computation of
`src/schedule.rs` lines 203-210: `"," + hour + "," + minute`. -/
def timeStringEnd (t : NaiveTime) : String :=
  "," ++ toString t.hour ++ "," ++ toString t.minute

/-- The arguments of the `Schedule::Add` command (`src/schedule.rs` lines 14-54). -/
structure AddArgs where
  start_time : NaiveTime
  end_time : NaiveTime
  sun : Bool
  mon : Bool
  tue : Bool
  wed : Bool
  thu : Bool
  fri : Bool
  sat : Bool
  wkday : Bool
  wkend : Bool
  all : Bool
  break_type : ScheduleBreak
deriving DecidableEq, Repr

/-- One iteration of the `for i in 0..NUM_OF_DAYS_IN_WEEK` loop of
`Schedule::Add` (`src/schedule.rs` lines 246-261): when day `i` is selected,
push a block whose id is the current length of the schedule. -/
def scheduleAddStep (start_string_end end_string_end break_string : String)
    (days_of_week : List Bool) (acc : List ScheduleBlock) (i : Nat) :
    List ScheduleBlock :=
  if days_of_week.getD i false then
    acc ++ [{ id := acc.length,
              start_time := toString i ++ start_string_end,
              end_time := toString i ++ end_string_end,
              break_type := break_string }]
  else acc

/-- The `Schedule::Add` arm of `schedule` (`src/schedule.rs` lines 188-261).
The `all` / `wkday` / `wkend` flags force the corresponding day flags, then
one block per selected day is appended, with id equal to the length of the
schedule at push time.  The start and end strings carry the SAME day index
`i`: no midnight day roll is performed anywhere in this arm. -/
def scheduleAdd (args : AddArgs) (final_schedule : List ScheduleBlock) :
    List ScheduleBlock :=
  let start_string_end := timeStringEnd args.start_time
  let end_string_end := timeStringEnd args.end_time
  let break_string := breakString args.break_type
  let sun := args.sun || args.all || args.wkend
  let mon := args.mon || args.all || args.wkday
  let tue := args.tue || args.all || args.wkday
  let wed := args.wed || args.all || args.wkday
  let thu := args.thu || args.all || args.wkday
  let fri := args.fri || args.all || args.wkday
  let sat := args.sat || args.all || args.wkend
  let days_of_week : List Bool := [sun, mon, tue, wed, thu, fri, sat]
  (List.range 7).foldl
    (scheduleAddStep start_string_end end_string_end break_string days_of_week)
    final_schedule

/-- `Day` from `src/schedule.rs`. -/
inductive Day where
  | sun | mon | tue | wed | thu | fri | sat
deriving DecidableEq, Repr

/-- The `day_num` computation of the `Schedule::Edit` arm
(`src/schedule.rs` lines 292-300). -/
def dayNum : Day → String
  | .sun => "0"
  | .mon => "1"
  | .tue => "2"
  | .wed => "3"
  | .thu => "4"
  | .fri => "5"
  | .sat => "6"

/-- `Vec::position` as used in this program: index of the first element
satisfying the predicate. -/
def listPosition (p : String → Bool) : List String → Option Nat
  | [] => none
  | x :: xs => if p x then some 0 else (listPosition p xs).map (fun n => n + 1)

/-- Rust `Vec::swap_remove idx`: the element at `idx` is replaced by the last
element and the last element is dropped. -/
def listSwapRemove (xs : List String) (idx : Nat) : List String :=
  (xs.set idx (xs.getLastD "")).dropLast

/-- The `remove_element` mask construction of `Schedule::Remove`
(`src/schedule.rs` lines 317-321): a vector of `true` of the schedule's
length, set to `false` at each listed id.  Indexing `remove_element[i]` with
`i` out of range panics in Rust; the panic is modelled by `none`. -/
def removeMask (len : Nat) (ids : List Nat) : Option (List Bool) :=
  ids.foldl
    (fun acc i => acc.bind (fun mask =>
      if i < len then some (mask.set i false) else none))
    (some (List.replicate len true))

/-- The `retain` call of `Schedule::Remove` (`src/schedule.rs` lines 322-323):
keep exactly the elements whose mask entry is `true`. -/
def retainMask : List ScheduleBlock → List Bool → List ScheduleBlock
  | [], _ => []
  | _ :: _, [] => []
  | b :: bs, m :: ms => if m then b :: retainMask bs ms else retainMask bs ms

/-- The renumbering loop `for i in 0..final_schedule.len() { final_schedule[i].id = i }`
of `Schedule::Remove` and `Schedule::Done` (`src/schedule.rs` lines 324-326
and 337-339), starting from index `n`. -/
def renumberFrom (n : Nat) : List ScheduleBlock → List ScheduleBlock
  | [] => []
  | b :: bs => { b with id := n } :: renumberFrom (n + 1) bs

/-- Renumbering from 0, as the source does. -/
def renumber (xs : List ScheduleBlock) : List ScheduleBlock :=
  renumberFrom 0 xs

/-- One schedule REPL command, as parsed by clap in `src/schedule.rs`. -/
inductive ScheduleCmd where
  | add (args : AddArgs) : ScheduleCmd
  | edit (id : Nat) (day : Day) (start_time end_time : NaiveTime)
      (break_type : ScheduleBreak) : ScheduleCmd
  | remove (ids : List Nat) (all : Bool) : ScheduleCmd
  | print : ScheduleCmd
  | done : ScheduleCmd
deriving DecidableEq, Repr

/-- One iteration of the `schedule` REPL loop (`src/schedule.rs` lines
184-344) acting on the in-memory `final_schedule` list.  `none` models a
panic (Rust index out of bounds in the `Remove` arm).  `Edit` with an
out-of-range id prints a message and continues with the list unchanged;
`Print` only writes to stdout; `Done` renumbers ids before returning. -/
def stepSchedule (cmd : ScheduleCmd) (final_schedule : List ScheduleBlock) :
    Option (List ScheduleBlock) :=
  match cmd with
  | .add args => some (scheduleAdd args final_schedule)
  | .edit id day start_time end_time break_type =>
      if id ≥ final_schedule.length then some final_schedule
      else
        some (final_schedule.set id
          { id := id,
            start_time := dayNum day ++ timeStringEnd start_time,
            end_time := dayNum day ++ timeStringEnd end_time,
            break_type := breakString break_type })
  | .remove ids all =>
      if all then some []
      else
        (removeMask final_schedule.length ids).map
          (fun mask => renumber (retainMask final_schedule mask))
  | .print => some final_schedule
  | .done => some (renumber final_schedule)

/-- Spec-side helper: split a character list at commas. -/
def specSplitComma : List Char → List Char → List (List Char)
  | [], acc => [acc.reverse]
  | c :: cs, acc =>
      if c = ',' then acc.reverse :: specSplitComma cs []
      else specSplitComma cs (c :: acc)

/-- Spec-side helper: read a decimal digit list as a number. -/
def specDigitsToNat (cs : List Char) : Nat :=
  cs.foldl (fun n c => n * 10 + (c.toNat - 48)) 0

/-- Spec-side helper (vocabulary of the spec, not of the code): the
day-of-week component of an encoded `"day,hour,minute"` time string. -/
def specStoredDay (s : String) : String :=
  String.mk ((specSplitComma s.data []).getD 0 [])

/-- Spec-side helper (vocabulary of the spec, not of the code): the minute
component of an encoded `"day,hour,minute"` time string, as a number. -/
def specStoredMinute (s : String) : Nat :=
  specDigitsToNat ((specSplitComma s.data []).getD 2 [])

/-- The ids of a schedule list are contiguous 0-based positional indices. -/
def idsContiguous (s : List ScheduleBlock) : Prop :=
  ∀ k, (h : k < s.length) → (s.get ⟨k, h⟩).id = k

instance (s : List ScheduleBlock) : Decidable (idsContiguous s) :=
  Nat.decidableBallLT s.length (fun k h => (s.get ⟨k, h⟩).id = k)

theorem idsContiguous_iff_getElem (s : List ScheduleBlock) :
    idsContiguous s ↔ ∀ k, (h : k < s.length) → s[k].id = k :=
  Iff.rfl

theorem scheduleAddStep_mem (a b c : String) (days : List Bool) (acc : List ScheduleBlock)
    (i : Nat) (e : ScheduleBlock) (he : e ∈ scheduleAddStep a b c days acc i) :
    e ∈ acc ∨ (e.start_time = toString i ++ a ∧ e.end_time = toString i ++ b ∧
      e.break_type = c ∧ e.id = acc.length) := by
  unfold scheduleAddStep at he
  by_cases hd : days.getD i false
  · rw [if_pos hd, List.mem_append, List.mem_singleton] at he
    rcases he with h | h
    · exact Or.inl h
    · subst h; exact Or.inr ⟨rfl, rfl, rfl, rfl⟩
  · rw [if_neg hd] at he
    exact Or.inl he

theorem foldl_scheduleAddStep_mem (a b c : String) (days : List Bool) :
    ∀ (l : List Nat) (acc : List ScheduleBlock) (e : ScheduleBlock),
      e ∈ l.foldl (scheduleAddStep a b c days) acc →
      e ∈ acc ∨ ∃ i ∈ l, e.start_time = toString i ++ a ∧ e.end_time = toString i ++ b ∧
        e.break_type = c
  | [], acc, e, he => Or.inl he
  | i :: l, acc, e, he => by
    rcases foldl_scheduleAddStep_mem a b c days l (scheduleAddStep a b c days acc i) e he with
      h | ⟨j, hj, hjs⟩
    · rcases scheduleAddStep_mem a b c days acc i e h with h2 | h2
      · exact Or.inl h2
      · exact Or.inr ⟨i, List.mem_cons_self i l, h2.1, h2.2.1, h2.2.2.1⟩
    · exact Or.inr ⟨j, List.mem_cons_of_mem i hj, hjs⟩

theorem scheduleAdd_mem_shape (args : AddArgs) (s : List ScheduleBlock) (e : ScheduleBlock)
    (he : e ∈ scheduleAdd args s) :
    e ∈ s ∨ ∃ i, i < 7 ∧ e.start_time = toString i ++ timeStringEnd args.start_time ∧
      e.end_time = toString i ++ timeStringEnd args.end_time ∧
      e.break_type = breakString args.break_type := by
  unfold scheduleAdd at he
  rcases foldl_scheduleAddStep_mem _ _ _ _ (List.range 7) s e he with h | ⟨i, hi, h1, h2, h3⟩
  · exact Or.inl h
  · exact Or.inr ⟨i, List.mem_range.mp hi, h1, h2, h3⟩

theorem idsContiguous_append (acc : List ScheduleBlock) (st en br : String)
    (h : idsContiguous acc) :
    idsContiguous
      (acc ++ [{ id := acc.length, start_time := st, end_time := en, break_type := br }]) := by
  rw [idsContiguous_iff_getElem] at h ⊢
  intro k hk
  rcases Nat.lt_or_ge k acc.length with hlt | hge
  · rw [List.getElem_append_left hlt]
    exact h k hlt
  · have hlen : k < acc.length + 1 := by simpa using hk
    have hke : k = acc.length := Nat.le_antisymm (Nat.lt_succ_iff.mp hlen) hge
    subst hke
    simp

theorem foldl_scheduleAddStep_contiguous (a b c : String) (days : List Bool) :
    ∀ (l : List Nat) (acc : List ScheduleBlock), idsContiguous acc →
      idsContiguous (l.foldl (scheduleAddStep a b c days) acc)
  | [], _, h => h
  | i :: l, acc, h => by
    refine foldl_scheduleAddStep_contiguous a b c days l _ ?_
    unfold scheduleAddStep
    by_cases hd : days.getD i false
    · rw [if_pos hd]
      exact idsContiguous_append acc _ _ _ h
    · rw [if_neg hd]
      exact h

theorem scheduleAdd_contiguous (args : AddArgs) (s : List ScheduleBlock)
    (h : idsContiguous s) : idsContiguous (scheduleAdd args s) := by
  unfold scheduleAdd
  exact foldl_scheduleAddStep_contiguous _ _ _ _ (List.range 7) s h

theorem length_renumberFrom (n : Nat) (xs : List ScheduleBlock) :
    (renumberFrom n xs).length = xs.length := by
  induction xs generalizing n with
  | nil => rfl
  | cons b bs ih => simp [renumberFrom, ih]

theorem renumberFrom_id (xs : List ScheduleBlock) :
    ∀ (n k : Nat), (h : k < (renumberFrom n xs).length) →
      ((renumberFrom n xs)[k]).id = n + k := by
  induction xs with
  | nil => intro n k h; simp [renumberFrom] at h
  | cons b bs ih =>
    intro n k h
    cases k with
    | zero => simp [renumberFrom]
    | succ k2 =>
      have h2 : k2 < (renumberFrom (n + 1) bs).length := by
        simpa [renumberFrom, Nat.succ_lt_succ_iff] using h
      have := ih (n + 1) k2 h2
      simp only [renumberFrom, List.getElem_cons_succ]
      rw [this]
      omega

theorem idsContiguous_renumber (xs : List ScheduleBlock) :
    idsContiguous (renumber xs) := by
  rw [idsContiguous_iff_getElem]
  intro k h
  have := renumberFrom_id xs 0 k h
  simpa using this

theorem idsContiguous_set (s : List ScheduleBlock) (j : Nat) (b : ScheduleBlock)
    (hb : b.id = j) (h : idsContiguous s) : idsContiguous (s.set j b) := by
  rw [idsContiguous_iff_getElem] at h ⊢
  intro k hk
  have hk2 : k < s.length := by simpa using hk
  rw [List.getElem_set]
  by_cases he : j = k
  · rw [if_pos he, hb, he]
  · rw [if_neg he]
    exact h k hk2

theorem idsContiguous_nil : idsContiguous [] := by
  intro k h
  simp at h

theorem stepSchedule_ids_contiguous (cmd : ScheduleCmd) (s t : List ScheduleBlock)
    (hs : idsContiguous s) (hstep : stepSchedule cmd s = some t) : idsContiguous t := by
  cases cmd with
  | add args =>
    simp only [stepSchedule, Option.some.injEq] at hstep
    subst hstep
    exact scheduleAdd_contiguous args s hs
  | edit j day st en brk =>
    simp only [stepSchedule] at hstep
    by_cases hj : j ≥ s.length
    · rw [if_pos hj] at hstep
      cases hstep
      exact hs
    · rw [if_neg hj] at hstep
      cases hstep
      exact idsContiguous_set s j _ rfl hs
  | remove ids all =>
    simp only [stepSchedule] at hstep
    by_cases ha : all
    · rw [if_pos ha] at hstep
      cases hstep
      exact idsContiguous_nil
    · rw [if_neg ha] at hstep
      rcases Option.map_eq_some'.mp hstep with ⟨mask, hm, ht⟩
      subst ht
      exact idsContiguous_renumber _
  | print =>
    cases hstep
    exact hs
  | done =>
    cases hstep
    exact idsContiguous_renumber s

/-- The end-to-end scenario of C1: schedule entry for Monday and Wednesday,
start 22:00, end 00:00 (midnight), no breaks. -/
def c1Args : AddArgs :=
  { start_time := ⟨22, 0⟩, end_time := ⟨0, 0⟩,
    sun := false, mon := true, tue := false, wed := true, thu := false,
    fri := false, sat := false, wkday := false, wkend := false, all := false,
    break_type := .nobreak }

/-- The scenario of C2: schedule entry for Monday, start 10:03 (minute not a
multiple of 5), end 11:00, no breaks. -/
def c2Args : AddArgs :=
  { start_time := ⟨10, 3⟩, end_time := ⟨11, 0⟩,
    sun := false, mon := true, tue := false, wed := false, thu := false,
    fri := false, sat := false, wkday := false, wkend := false, all := false,
    break_type := .nobreak }

/-- C1, counterexample: adding a schedule entry for Monday and Wednesday with
start 22:00 and end 00:00 produces end strings "1,0,0" and "3,0,0" — the end
day-of-week is NOT rolled to the next day, contradicting the claimed end
strings "2,0,0" and "4,0,0". -/
theorem scheduleAdd_midnight_not_rolled :
    (scheduleAdd c1Args []).map (fun e => e.end_time) = ["1,0,0", "3,0,0"] ∧
    ¬((scheduleAdd c1Args []).map (fun e => e.end_time) = ["2,0,0", "4,0,0"]) := by
  decide

/-- C1 (amended): every entry produced by the `Add` arm of the schedule REPL
carries the SAME day-of-week index in its start and end strings — the end day
is never rolled, even when the end time is midnight; in particular the
Monday/Wednesday 22:00-00:00 scenario yields start strings "1,22,0"/"3,22,0"
and end strings "1,0,0"/"3,0,0". -/
theorem scheduleAdd_end_day_equals_start_day :
    (∀ (args : AddArgs) (s : List ScheduleBlock) (e : ScheduleBlock),
      e ∈ scheduleAdd args s → e ∈ s ∨ ∃ i, i < 7 ∧
        e.start_time = toString i ++ timeStringEnd args.start_time ∧
        e.end_time = toString i ++ timeStringEnd args.end_time) ∧
    scheduleAdd c1Args [] =
      [{ id := 0, start_time := "1,22,0", end_time := "1,0,0", break_type := "none" },
       { id := 1, start_time := "3,22,0", end_time := "3,0,0", break_type := "none" }] := by
  constructor
  · intro args s e he
    rcases scheduleAdd_mem_shape args s e he with h | ⟨i, hi, h1, h2, _⟩
    · exact Or.inl h
    · exact Or.inr ⟨i, hi, h1, h2⟩
  · decide

theorem scheduleAdd_end_day_equals_start_day_witness :
    (({ id := 0, start_time := "1,22,0", end_time := "1,0,0", break_type := "none" } :
        ScheduleBlock) ∈ scheduleAdd c1Args []) ∧
    (({ id := 0, start_time := "1,22,0", end_time := "1,0,0", break_type := "none" } :
        ScheduleBlock) ∈ ([] : List ScheduleBlock) ∨ ∃ i, i < 7 ∧
      "1,22,0" = toString i ++ timeStringEnd c1Args.start_time ∧
      "1,0,0" = toString i ++ timeStringEnd c1Args.end_time) :=
  ⟨by decide, scheduleAdd_end_day_equals_start_day.1 c1Args [] _ (by decide)⟩

/-- C2, counterexample: the schedule REPL stores a start time of 10:03 as
"1,10,3" — a persisted entry whose start minute component (3) is not a
multiple of 5, so no 5-minute-granularity validation is performed. -/
theorem scheduleAdd_minute_granularity_unchecked :
    (scheduleAdd c2Args []).map (fun e => e.start_time) = ["1,10,3"] ∧
    ¬(∀ e ∈ scheduleAdd c2Args [], specStoredMinute e.start_time % 5 = 0) := by
  decide

/-- C2 (amended): no minute-granularity validation exists; the `Add` arm of
the schedule REPL stores the parsed time's exact hour and minute components
verbatim, whatever the minute is; in particular start 10:03 is persisted as
"1,10,3". -/
theorem scheduleAdd_stores_exact_minutes :
    (∀ (args : AddArgs) (s : List ScheduleBlock) (e : ScheduleBlock),
      e ∈ scheduleAdd args s → e ∈ s ∨ ∃ i, i < 7 ∧
        e.start_time = toString i ++ "," ++ toString args.start_time.hour ++ "," ++
          toString args.start_time.minute ∧
        e.end_time = toString i ++ "," ++ toString args.end_time.hour ++ "," ++
          toString args.end_time.minute) ∧
    scheduleAdd c2Args [] =
      [{ id := 0, start_time := "1,10,3", end_time := "1,11,0", break_type := "none" }] := by
  constructor
  · intro args s e he
    rcases scheduleAdd_mem_shape args s e he with h | ⟨i, hi, h1, h2, _⟩
    · exact Or.inl h
    · refine Or.inr ⟨i, hi, ?_, ?_⟩
      · rw [h1]
        unfold timeStringEnd
        simp [String.append_assoc]
      · rw [h2]
        unfold timeStringEnd
        simp [String.append_assoc]
  · decide

theorem scheduleAdd_stores_exact_minutes_witness :
    (({ id := 0, start_time := "1,10,3", end_time := "1,11,0", break_type := "none" } :
        ScheduleBlock) ∈ scheduleAdd c2Args []) ∧
    (({ id := 0, start_time := "1,10,3", end_time := "1,11,0", break_type := "none" } :
        ScheduleBlock) ∈ ([] : List ScheduleBlock) ∨ ∃ i, i < 7 ∧
      "1,10,3" = toString i ++ "," ++ toString c2Args.start_time.hour ++ "," ++
        toString c2Args.start_time.minute ∧
      "1,11,0" = toString i ++ "," ++ toString c2Args.end_time.hour ++ "," ++
        toString c2Args.end_time.minute) :=
  ⟨by decide, scheduleAdd_stores_exact_minutes.1 c2Args [] _ (by decide)⟩

/-- C7: every schedule REPL command that completes (Add, Edit, Remove, Print,
Done — in particular Add, Remove and Done) preserves the invariant that the
entry at position k has id k; hence the list kept by `schedule` always has
ids 0..len-1. -/
theorem stepSchedule_preserves_contiguous_ids (cmd : ScheduleCmd)
    (s t : List ScheduleBlock) (hs : idsContiguous s)
    (hstep : stepSchedule cmd s = some t) : idsContiguous t :=
  stepSchedule_ids_contiguous cmd s t hs hstep

theorem stepSchedule_preserves_contiguous_ids_witness :
    idsContiguous
      [{ id := 0, start_time := "1,22,0", end_time := "1,0,0", break_type := "none" },
       { id := 1, start_time := "3,22,0", end_time := "3,0,0", break_type := "none" }] :=
  stepSchedule_preserves_contiguous_ids (.add c1Args) [] _ (by decide) (by decide)

/-- C9: the `Remove` arm of the schedule REPL indexes `remove_element[i]`
without a bounds check, so an id ≥ the list length makes the process panic
(modelled by `none`): with an empty list, `remove 0` panics, and with one
entry, `remove 5` panics — while `Edit` DOES validate its id and leaves the
list unchanged. -/
theorem stepSchedule_remove_invalid_id_panics :
    stepSchedule (.remove [0] false) [] = none ∧
    stepSchedule (.remove [5] false)
      [{ id := 0, start_time := "1,22,0", end_time := "1,0,0", break_type := "none" }] = none ∧
    stepSchedule (.edit 5 .mon ⟨1, 0⟩ ⟨2, 0⟩ .nobreak) [] = some [] := by
  decide

/-- The ordered time format list `ALLOWED_PARSE` of `str_to_time`
(`src/convert.rs` line 4). -/
def ALLOWED_PARSE_TIME : List String :=
  ["%H:%M", "%k:%M", "%I:%M%P", "%I:%M%p", "%l:%M%P", "%l:%M%p"]

/-- The ordered date format list `ALLOWED_PARSE` of `str_to_date`
(`src/convert.rs` lines 15-17). -/
def ALLOWED_PARSE_DATE : List String :=
  ["%d %B %Y", "%e %B %Y", "%B %d %Y", "%B %e %Y", "%F", "%d/%m/%Y"]

/-- Whether an `Except` result is `Ok`. -/
def exceptIsOk {E T : Type} : Except E T → Bool
  | .ok _ => true
  | .error _ => false

/-- The `for parser in &ALLOWED_PARSE` loop shared by `str_to_time` and
`str_to_date` (`src/convert.rs` lines 5-10 and 18-23): return the first
format that parses successfully, `none` when every format fails. -/
def tryFormatsFirst {E T : Type} (parse : String → Except E T) :
    List String → Option T
  | [] => none
  | p :: ps =>
      match parse p with
      | .ok t => some t
      | .error _ => tryFormatsFirst parse ps

/-- `str_to_time` from `src/convert.rs` lines 3-12, parametric in chrono's
external `NaiveTime::parse_from_str`: try each format in order; if none
succeeds, re-attempt the first (canonical) format and return its error. -/
def str_to_time {E T : Type} (parse_from_str : String → String → Except E T)
    (s : String) : Except E T :=
  match tryFormatsFirst (fun p => parse_from_str s p) ALLOWED_PARSE_TIME with
  | some t => .ok t
  | none => parse_from_str s (ALLOWED_PARSE_TIME.headD "")

/-- `str_to_date` from `src/convert.rs` lines 14-25, parametric in chrono's
external `NaiveDate::parse_from_str`. -/
def str_to_date {E D : Type} (parse_from_str : String → String → Except E D)
    (s : String) : Except E D :=
  match tryFormatsFirst (fun p => parse_from_str s p) ALLOWED_PARSE_DATE with
  | some t => .ok t
  | none => parse_from_str s (ALLOWED_PARSE_DATE.headD "")

theorem tryFormatsFirst_eq_find {E T : Type} (parse : String → Except E T) :
    ∀ ps : List String,
      tryFormatsFirst parse ps =
        (ps.find? (fun p => exceptIsOk (parse p))).bind (fun p => (parse p).toOption)
  | [] => rfl
  | p :: ps => by
    rw [tryFormatsFirst, List.find?_cons]
    cases hp : parse p with
    | ok t => simp [exceptIsOk, hp, Except.toOption]
    | error e => simp [exceptIsOk, hp, tryFormatsFirst_eq_find parse ps]

theorem firstFormat_spec {E T : Type} (parse : String → Except E T)
    (fmts : List String) :
    (match tryFormatsFirst parse fmts with
      | some t => Except.ok t
      | none => parse (fmts.headD "")) =
    (match fmts.find? (fun p => exceptIsOk (parse p)) with
      | some p => parse p
      | none => parse (fmts.headD "")) := by
  rw [tryFormatsFirst_eq_find]
  cases hf : fmts.find? (fun p => exceptIsOk (parse p)) with
  | none => rfl
  | some p =>
    have hp : exceptIsOk (parse p) = true := by simpa using List.find?_some hf
    cases hpp : parse p with
    | ok t => simp [hpp, Except.toOption]
    | error e => rw [hpp] at hp; exact absurd hp (by simp [exceptIsOk])

/-- C4: `str_to_time` and `str_to_date` return the result of the first
format in their fixed ordered list that parses the input successfully; and
when no format succeeds, the returned value is exactly the result (the
error) of re-attempting the first, canonical format on the input. -/
theorem str_to_time_date_first_format_wins {E T D : Type}
    (parseT : String → String → Except E T)
    (parseD : String → String → Except E D) (s : String) :
    (str_to_time parseT s =
      match ALLOWED_PARSE_TIME.find? (fun p => exceptIsOk (parseT s p)) with
      | some p => parseT s p
      | none => parseT s (ALLOWED_PARSE_TIME.headD "")) ∧
    (str_to_date parseD s =
      match ALLOWED_PARSE_DATE.find? (fun p => exceptIsOk (parseD s p)) with
      | some p => parseD s p
      | none => parseD s (ALLOWED_PARSE_DATE.headD "")) :=
  ⟨firstFormat_spec (fun p => parseT s p) ALLOWED_PARSE_TIME,
   firstFormat_spec (fun p => parseD s p) ALLOWED_PARSE_DATE⟩

/-- `LockMethod` from `src/suggest.rs` lines 125-139. -/
inductive LockMethod where
  | none | random | range | restart | password
deriving DecidableEq, Repr

/-- `SchedType` from `src/suggest.rs` lines 209-214. -/
inductive SchedType where
  | continuous | scheduled
deriving DecidableEq, Repr

/-- `BlockSettings` from `src/suggest.rs` lines 188-207: every Cold Turkey
field is string-encoded except the list-valued ones. -/
structure BlockSettings where
  sched_type : SchedType
  lock : LockMethod
  lock_unblock : String
  restart_unblock : String
  password : String
  random_text_length : String
  break_type : String
  window : String
  users : String
  web : List String
  exceptions : List String
  apps : List String
  schedule : List ScheduleBlock
  custom_users : List String
deriving DecidableEq, Repr

/-- `BlockSettings::new` from `src/suggest.rs` lines 223-243. -/
def BlockSettings.new : BlockSettings :=
  { sched_type := .continuous
    lock := .none
    lock_unblock := "true"
    restart_unblock := "true"
    password := ""
    random_text_length := "30"
    break_type := "none"
    window := "lock@9,0@17,0"
    users := ""
    web := []
    exceptions := []
    apps := []
    schedule := []
    custom_users := [] }

/-- `LockMethodConfig` from `src/suggest.rs` lines 141-168.  For `Password`
the `rpassword` prompt outcome is carried as an argument: `some pw` models a
successful prompt, `none` a failed one. -/
inductive LockMethodConfig where
  | random (length : Nat)
  | range (start_time end_time : NaiveTime) (unlocked : Bool)
  | restart (unlocked : Bool)
  | password (prompt_result : Option String)
deriving DecidableEq, Repr

/-- The `Suggest::Config` arm of the suggest REPL (`src/suggest.rs` lines
347-419) on the settings of an existing block. -/
def suggestConfig (lock_method : LockMethodConfig) (lock : Bool)
    (bs : BlockSettings) : BlockSettings :=
  match lock_method with
  | .random length =>
      let bs2 := { bs with random_text_length := toString length }
      if lock then { bs2 with lock := .random } else bs2
  | .range start_time end_time unlocked =>
      let window_string := if unlocked then "unlock" else "lock"
      let start_string := "@" ++ toString start_time.hour ++ "," ++
        toString start_time.minute
      let end_string := "@" ++ toString end_time.hour ++ "," ++
        toString end_time.minute
      let bs2 := { bs with window := window_string ++ start_string ++ end_string }
      if lock then { bs2 with lock := .range } else bs2
  | .restart unlocked =>
      let bs2 := { bs with restart_unblock := if unlocked then "true" else "false" }
      if lock then { bs2 with lock := .restart } else bs2
  | .password prompt_result =>
      let bs2 :=
        match prompt_result with
        | some pw => { bs with password := pw }
        | Option.none => bs
      if lock then { bs2 with lock := .password } else bs2

/-- `RangeWindow` from `src/blocksettings.rs` lines 140-145. -/
structure RangeWindow where
  lock_range : Bool
  start_time : NaiveTime
  end_time : NaiveTime
deriving DecidableEq, Repr

/-- `RangeWindow::serialize` from `src/blocksettings.rs` lines 147-160:
`format!("{}lock@{},{}@{},{}", if lock_range then "" else "un", hours and
minutes in unpadded decimal)`. -/
def rangeWindowSerialize (w : RangeWindow) : String :=
  (if w.lock_range then "" else "un") ++ "lock@" ++
    toString w.start_time.hour ++ "," ++ toString w.start_time.minute ++ "@" ++
    toString w.end_time.hour ++ "," ++ toString w.end_time.minute

/-- C5: the serialized window field is "lock" or "unlock" (by the
lock-during-range flag) followed by "@start_hour,start_minute@end_hour,end_minute"
in unpadded decimal; start 09:00, end 17:00, lock-during-range = true encodes
as "lock@9,0@17,0", both through `RangeWindow::serialize` and through the
suggest REPL's `Config Range` arm. -/
theorem rangeWindow_serialization_format :
    (∀ w : RangeWindow, rangeWindowSerialize w =
      (if w.lock_range then "lock" else "unlock") ++ "@" ++
        toString w.start_time.hour ++ "," ++ toString w.start_time.minute ++ "@" ++
        toString w.end_time.hour ++ "," ++ toString w.end_time.minute) ∧
    rangeWindowSerialize ⟨true, ⟨9, 0⟩, ⟨17, 0⟩⟩ = "lock@9,0@17,0" ∧
    (suggestConfig (.range ⟨9, 0⟩ ⟨17, 0⟩ false) true BlockSettings.new).window =
      "lock@9,0@17,0" := by
  refine ⟨?_, by decide, by decide⟩
  intro w
  obtain ⟨b, st, en⟩ := w
  cases b
  · rw [show (rangeWindowSerialize ⟨false, st, en⟩) =
        "un" ++ "lock@" ++ toString st.hour ++ "," ++ toString st.minute ++ "@" ++
          toString en.hour ++ "," ++ toString en.minute from rfl]
    rw [show ("un" ++ "lock@" : String) = "unlock" ++ "@" from by decide]
    rfl
  · rw [show (rangeWindowSerialize ⟨true, st, en⟩) =
        "" ++ "lock@" ++ toString st.hour ++ "," ++ toString st.minute ++ "@" ++
          toString en.hour ++ "," ++ toString en.minute from rfl]
    rw [show ("" ++ "lock@" : String) = "lock" ++ "@" from by decide]
    rfl

/-- C3, counterexample: the `Config Random` command with length 1000 is
accepted and stored as "1000" — there is no [0, 999] bounds check, so 1000
is not rejected (it would leave the default "30" in place if it were). -/
theorem randomTextLength_1000_accepted :
    (suggestConfig (.random 1000) false BlockSettings.new).random_text_length =
      "1000" ∧
    "1000" ≠ BlockSettings.new.random_text_length := by
  decide

/-- C3 (amended): `random_text_length` defaults to 30, and the only
constraint on a configured length is the u16 argument type: any parsed
length is rendered in decimal and stored, with no [0, 999] bounds check —
999 is accepted and stored, and so is 1000. -/
theorem randomTextLength_default_30_no_bounds_check :
    BlockSettings.new.random_text_length = "30" ∧
    (∀ (n : Nat) (lock : Bool) (bs : BlockSettings),
      (suggestConfig (.random n) lock bs).random_text_length = toString n) ∧
    (suggestConfig (.random 999) false BlockSettings.new).random_text_length =
      "999" ∧
    (suggestConfig (.random 1000) false BlockSettings.new).random_text_length =
      "1000" := by
  refine ⟨rfl, ?_, by decide, by decide⟩
  intro n lock bs
  cases lock <;> rfl

/-- Rust `path.replace("\\", "/")` on the suggest REPL's `Add` path
(`src/suggest.rs` line 459): the pattern is the single backslash character,
so every backslash is replaced by a forward slash. -/
def pathReplaceBackslash (s : String) : String :=
  String.mk (s.data.map (fun c => if c = '\\' then '/' else c))

/-- `PathType` from `src/suggest.rs` lines 170-186. -/
inductive PathType where
  | web (except : Bool)
  | file
  | folder
  | win10
  | title
deriving DecidableEq, Repr

/-- The `Suggest::Add` arm of the suggest REPL (`src/suggest.rs` lines
454-500) on the settings of an existing block: backslashes are normalized,
then the path is pushed onto the web/exceptions list or pushed onto `apps`
with a kind tag — note the `Folder` case tags with "app:", not "folder:". -/
def suggestAdd (path_type : PathType) (path0 : String) (bs : BlockSettings) :
    BlockSettings :=
  let path := pathReplaceBackslash path0
  match path_type with
  | .web except =>
      if except then { bs with exceptions := bs.exceptions ++ [path] }
      else { bs with web := bs.web ++ [path] }
  | .file => { bs with apps := bs.apps ++ ["file:" ++ path] }
  | .folder => { bs with apps := bs.apps ++ ["app:" ++ path] }
  | .win10 => { bs with apps := bs.apps ++ ["win10:" ++ path] }
  | .title => { bs with apps := bs.apps ++ ["title:" ++ path] }

/-- The `Suggest::Delete` arm of the suggest REPL (`src/suggest.rs` lines
501-564) on the settings of an existing block, returning the new settings
and the printed message. -/
def suggestDelete (path_type : PathType) (path block_name : String)
    (bs : BlockSettings) : BlockSettings × String :=
  match path_type with
  | .web except =>
      let remove_vec := if except then bs.exceptions else bs.web
      match listPosition (fun a => a == path) remove_vec with
      | some idx =>
          let v2 := listSwapRemove remove_vec idx
          (if except then { bs with exceptions := v2 } else { bs with web := v2 },
           "Web path " ++ path ++ " removed from block " ++ block_name)
      | none =>
          (bs, "Web path " ++ path ++ " does not exist in block " ++ block_name)
  | .file =>
      let app := "file:" ++ path
      match listPosition (fun a => a == app) bs.apps with
      | some idx =>
          ({ bs with apps := listSwapRemove bs.apps idx },
           "File " ++ path ++ " removed from " ++ block_name)
      | none => (bs, "File " ++ path ++ " does not exist in " ++ block_name)
  | .folder =>
      let app := "folder:" ++ path
      match listPosition (fun a => a == app) bs.apps with
      | some idx =>
          ({ bs with apps := listSwapRemove bs.apps idx },
           "Folder " ++ path ++ " removed from " ++ block_name)
      | none => (bs, "Folder " ++ path ++ " does not exist in " ++ block_name)
  | .win10 =>
      let app := "win10:" ++ path
      match listPosition (fun a => a == app) bs.apps with
      | some idx =>
          ({ bs with apps := listSwapRemove bs.apps idx },
           "Windows 10 application " ++ path ++ " removed from " ++ block_name)
      | none =>
          (bs, "Windows 10 application " ++ path ++ " does not exist in " ++
            block_name)
  | .title =>
      let app := "title:" ++ path
      match listPosition (fun a => a == app) bs.apps with
      | some idx =>
          ({ bs with apps := listSwapRemove bs.apps idx },
           "Window title " ++ path ++ " removed from " ++ block_name)
      | none =>
          (bs, "Window title " ++ path ++ " does not exist in " ++ block_name)

/-- `AppString` from `src/blocksettings.rs` lines 132-138. -/
inductive AppString where
  | file (path : String)
  | folder (path : String)
  | win10 (s : String)
  | title (s : String)
deriving DecidableEq, Repr

/-- `AppString::serialize` from `src/blocksettings.rs` lines 162-181. -/
def appStringSerialize : AppString → String
  | .file path => "file:" ++ pathReplaceBackslash path
  | .folder path => "folder:" ++ pathReplaceBackslash path
  | .win10 s => "win10:" ++ s
  | .title s => "title:" ++ s

/-- C6: the `AppString` serializer does tag folders "folder:" with
backslashes normalized, but the suggest REPL's `Add` arm tags a folder
target "app:": adding the folder `C:\Games` stores "app:C:/Games", whose
first seven characters are not "folder:", and the `Delete` arm (which
searches for "folder:" + path) then cannot find the entry it just added and
leaves every field unchanged. -/
theorem suggestAdd_folder_app_tag_mismatch :
    (∀ p : String, appStringSerialize (.folder p) = "folder:" ++ pathReplaceBackslash p) ∧
    (suggestAdd .folder "C:\\Games" BlockSettings.new).apps = ["app:C:/Games"] ∧
    ("app:C:/Games").data.take 7 ≠ ("folder:").data ∧
    (suggestDelete .folder "C:/Games" "blk"
        (suggestAdd .folder "C:\\Games" BlockSettings.new)).1 =
      suggestAdd .folder "C:\\Games" BlockSettings.new := by
  exact ⟨fun p => rfl, by decide, by decide, by decide⟩

theorem listPosition_lt (p : String → Bool) :
    ∀ (xs : List String) (idx : Nat), listPosition p xs = some idx → idx < xs.length
  | [], idx, h => by simp [listPosition] at h
  | x :: xs, idx, h => by
    unfold listPosition at h
    by_cases hp : p x
    · rw [if_pos hp] at h
      cases h
      simp
    · rw [if_neg hp] at h
      rcases Option.map_eq_some'.mp h with ⟨n, hn, hidx⟩
      subst hidx
      have := listPosition_lt p xs n hn
      simpa [Nat.succ_lt_succ_iff] using this

theorem listPosition_found (p : String → Bool) :
    ∀ (xs : List String) (idx : Nat), listPosition p xs = some idx →
      p (xs.getD idx "") = true
  | [], idx, h => by simp [listPosition] at h
  | x :: xs, idx, h => by
    unfold listPosition at h
    by_cases hp : p x
    · rw [if_pos hp] at h
      cases h
      simpa using hp
    · rw [if_neg hp] at h
      rcases Option.map_eq_some'.mp h with ⟨n, hn, hidx⟩
      subst hidx
      simpa using listPosition_found p xs n hn

theorem listPosition_first (p : String → Bool) :
    ∀ (xs : List String) (idx : Nat), listPosition p xs = some idx →
      ∀ k, k < idx → p (xs.getD k "") = false
  | [], idx, h => by simp [listPosition] at h
  | x :: xs, idx, h => by
    unfold listPosition at h
    by_cases hp : p x
    · rw [if_pos hp] at h
      cases h
      intro k hk
      exact absurd hk (Nat.not_lt_zero k)
    · rw [if_neg hp] at h
      rcases Option.map_eq_some'.mp h with ⟨n, hn, hidx⟩
      subst hidx
      intro k hk
      cases k with
      | zero => simpa using hp
      | succ k2 => simpa using listPosition_first p xs n hn k2 (by omega)

theorem length_listSwapRemove (xs : List String) (idx : Nat) (h : idx < xs.length) :
    (listSwapRemove xs idx).length + 1 = xs.length := by
  unfold listSwapRemove
  rw [List.length_dropLast, List.length_set]
  omega

theorem listSwapRemove_getD_before (xs : List String) (idx k : Nat)
    (hk : k < idx) (h : idx < xs.length) :
    (listSwapRemove xs idx).getD k "" = xs.getD k "" := by
  unfold listSwapRemove
  rw [List.getD_eq_getElem?_getD, List.getD_eq_getElem?_getD]
  rw [List.dropLast_eq_take, List.getElem?_take, List.length_set]
  rw [if_pos (by omega : k < xs.length - 1)]
  rw [List.getElem?_set_ne (by omega : idx ≠ k)]

theorem listSwapRemove_getD_at (xs : List String) (idx : Nat)
    (h : idx + 1 < xs.length) :
    (listSwapRemove xs idx).getD idx "" = xs.getD (xs.length - 1) "" := by
  unfold listSwapRemove
  rw [List.getD_eq_getElem?_getD, List.getD_eq_getElem?_getD]
  rw [List.dropLast_eq_take, List.getElem?_take, List.length_set]
  rw [if_pos (by omega : idx < xs.length - 1)]
  have hlt : idx < xs.length := by omega
  rw [List.getElem?_set_self hlt]
  rw [List.getLastD_eq_getLast?, List.getLast?_eq_getElem?]
  rfl

/-- Spec-side helper: the list targeted by a Delete command of each path
type (the claim's "targeted list"). -/
def targetList (path_type : PathType) (bs : BlockSettings) : List String :=
  match path_type with
  | .web true => bs.exceptions
  | .web false => bs.web
  | .file => bs.apps
  | .folder => bs.apps
  | .win10 => bs.apps
  | .title => bs.apps

/-- Spec-side helper: replace the targeted list, leaving every other field
of the settings unchanged. -/
def setTargetList (path_type : PathType) (bs : BlockSettings) (v : List String) :
    BlockSettings :=
  match path_type with
  | .web true => { bs with exceptions := v }
  | .web false => { bs with web := v }
  | .file => { bs with apps := v }
  | .folder => { bs with apps := v }
  | .win10 => { bs with apps := v }
  | .title => { bs with apps := v }

/-- Spec-side helper: the type tag a Delete command applies to its path
before searching (the claim's "with its type prefix applied"). -/
def deleteTag : PathType → String
  | .web _ => ""
  | .file => "file:"
  | .folder => "folder:"
  | .win10 => "win10:"
  | .title => "title:"

/-- Spec-side helper: the does-not-exist message each Delete variant prints. -/
def notFoundMsg (path_type : PathType) (path block_name : String) : String :=
  match path_type with
  | .web _ => "Web path " ++ path ++ " does not exist in block " ++ block_name
  | .file => "File " ++ path ++ " does not exist in " ++ block_name
  | .folder => "Folder " ++ path ++ " does not exist in " ++ block_name
  | .win10 =>
      "Windows 10 application " ++ path ++ " does not exist in " ++ block_name
  | .title => "Window title " ++ path ++ " does not exist in " ++ block_name

theorem targetList_setTargetList (path_type : PathType) (bs : BlockSettings)
    (v : List String) : targetList path_type (setTargetList path_type bs v) = v := by
  cases path_type with
  | web e => cases e <;> rfl
  | file => rfl
  | folder => rfl
  | win10 => rfl
  | title => rfl

theorem deleteCore (L : List String) (app : String) (idx : Nat)
    (hpos : listPosition (fun a => a == app) L = some idx) :
    L.getD idx "" = app ∧
    (∀ k, k < idx → ¬(L.getD k "" = app)) ∧
    (listSwapRemove L idx).length + 1 = L.length ∧
    (∀ k, k < idx → (listSwapRemove L idx).getD k "" = L.getD k "") ∧
    (idx + 1 < L.length →
      (listSwapRemove L idx).getD idx "" = L.getD (L.length - 1) "") := by
  have hlt := listPosition_lt _ L idx hpos
  refine ⟨?_, ?_, length_listSwapRemove L idx hlt, ?_, ?_⟩
  · have := listPosition_found _ L idx hpos
    simpa [beq_iff_eq] using this
  · intro k hk
    have := listPosition_first _ L idx hpos k hk
    simpa [beq_iff_eq] using this
  · intro k hk
    exact listSwapRemove_getD_before L idx k hk hlt
  · intro h2
    exact listSwapRemove_getD_at L idx h2

theorem deleteSpecAux (pt : PathType) (path bn : String) (bs : BlockSettings)
    (msgR : String)
    (hdef : suggestDelete pt path bn bs =
      (match listPosition (fun a => a == deleteTag pt ++ path) (targetList pt bs) with
       | some idx =>
           (setTargetList pt bs (listSwapRemove (targetList pt bs) idx), msgR)
       | none => (bs, notFoundMsg pt path bn))) :
    (∀ idx,
      listPosition (fun a => a == deleteTag pt ++ path) (targetList pt bs) = some idx →
      (suggestDelete pt path bn bs).1 =
        setTargetList pt bs (listSwapRemove (targetList pt bs) idx) ∧
      (targetList pt bs).getD idx "" = deleteTag pt ++ path ∧
      (∀ k, k < idx → ¬((targetList pt bs).getD k "" = deleteTag pt ++ path)) ∧
      (targetList pt (suggestDelete pt path bn bs).1).length + 1 =
        (targetList pt bs).length ∧
      (∀ k, k < idx →
        (targetList pt (suggestDelete pt path bn bs).1).getD k "" =
          (targetList pt bs).getD k "") ∧
      (idx + 1 < (targetList pt bs).length →
        (targetList pt (suggestDelete pt path bn bs).1).getD idx "" =
          (targetList pt bs).getD ((targetList pt bs).length - 1) "")) ∧
    (listPosition (fun a => a == deleteTag pt ++ path) (targetList pt bs) = none →
      (suggestDelete pt path bn bs).1 = bs ∧
      (suggestDelete pt path bn bs).2 = notFoundMsg pt path bn) := by
  constructor
  · intro idx hpos
    rw [hdef, hpos]
    have hcore := deleteCore (targetList pt bs) (deleteTag pt ++ path) idx hpos
    have hset := targetList_setTargetList pt bs
      (listSwapRemove (targetList pt bs) idx)
    refine ⟨rfl, hcore.1, hcore.2.1, ?_, ?_, ?_⟩
    · rw [hset]
      exact hcore.2.2.1
    · intro k hk
      rw [hset]
      exact hcore.2.2.2.1 k hk
    · intro h2
      rw [hset]
      exact hcore.2.2.2.2 h2
  · intro hpos
    rw [hdef, hpos]
    exact ⟨rfl, rfl⟩

/-- C10: a suggest REPL Delete removes at most one element: when the
type-tagged path occurs in the targeted list, exactly its first occurrence
is removed and the list's former last element takes the removed element's
position (entries before it keep their places, and the list shrinks by
exactly one); when it does not occur, the whole settings value is returned
unchanged together with the variant's does-not-exist message. -/
theorem suggestDelete_swap_remove_first_occurrence (pt : PathType)
    (path bn : String) (bs : BlockSettings) :
    (∀ idx,
      listPosition (fun a => a == deleteTag pt ++ path) (targetList pt bs) = some idx →
      (suggestDelete pt path bn bs).1 =
        setTargetList pt bs (listSwapRemove (targetList pt bs) idx) ∧
      (targetList pt bs).getD idx "" = deleteTag pt ++ path ∧
      (∀ k, k < idx → ¬((targetList pt bs).getD k "" = deleteTag pt ++ path)) ∧
      (targetList pt (suggestDelete pt path bn bs).1).length + 1 =
        (targetList pt bs).length ∧
      (∀ k, k < idx →
        (targetList pt (suggestDelete pt path bn bs).1).getD k "" =
          (targetList pt bs).getD k "") ∧
      (idx + 1 < (targetList pt bs).length →
        (targetList pt (suggestDelete pt path bn bs).1).getD idx "" =
          (targetList pt bs).getD ((targetList pt bs).length - 1) "")) ∧
    (listPosition (fun a => a == deleteTag pt ++ path) (targetList pt bs) = none →
      (suggestDelete pt path bn bs).1 = bs ∧
      (suggestDelete pt path bn bs).2 = notFoundMsg pt path bn) := by
  cases pt with
  | web e =>
    cases e
    · exact deleteSpecAux (.web false) path bn bs
        ("Web path " ++ path ++ " removed from block " ++ bn) rfl
    · exact deleteSpecAux (.web true) path bn bs
        ("Web path " ++ path ++ " removed from block " ++ bn) rfl
  | file =>
    exact deleteSpecAux .file path bn bs
      ("File " ++ path ++ " removed from " ++ bn) rfl
  | folder =>
    exact deleteSpecAux .folder path bn bs
      ("Folder " ++ path ++ " removed from " ++ bn) rfl
  | win10 =>
    exact deleteSpecAux .win10 path bn bs
      ("Windows 10 application " ++ path ++ " removed from " ++ bn) rfl
  | title =>
    exact deleteSpecAux .title path bn bs
      ("Window title " ++ path ++ " removed from " ++ bn) rfl

/-- A concrete settings value whose apps list has a duplicate target and a
distinct last element, for exercising the Delete theorem. -/
def bsW : BlockSettings :=
  { BlockSettings.new with apps := ["file:a", "x", "file:a", "z"] }

theorem suggestDelete_swap_remove_first_occurrence_witness :
    listPosition (fun a => a == deleteTag .file ++ "a") (targetList .file bsW) =
      some 0 ∧
    ((suggestDelete .file "a" "blk" bsW).1 =
      setTargetList .file bsW (listSwapRemove (targetList .file bsW) 0) ∧
    (targetList .file bsW).getD 0 "" = deleteTag .file ++ "a" ∧
    (∀ k, k < 0 → ¬((targetList .file bsW).getD k "" = deleteTag .file ++ "a")) ∧
    (targetList .file (suggestDelete .file "a" "blk" bsW).1).length + 1 =
      (targetList .file bsW).length ∧
    (∀ k, k < 0 →
      (targetList .file (suggestDelete .file "a" "blk" bsW).1).getD k "" =
        (targetList .file bsW).getD k "") ∧
    (0 + 1 < (targetList .file bsW).length →
      (targetList .file (suggestDelete .file "a" "blk" bsW).1).getD 0 "" =
        (targetList .file bsW).getD ((targetList .file bsW).length - 1) "")) :=
  ⟨by decide,
   (suggestDelete_swap_remove_first_occurrence .file "a" "blk" bsW).1 0 (by decide)⟩

/-- One user-visible event of the filesystem browser loop in
`block_settings_from_stdin` (`src/suggestdialog.rs` lines 478-646).
Directories are abstract numeric ids.  `cd target ok` models a `cd` command
whose `env::set_current_dir` call succeeds iff `ok`; `lsOrSearch` models an
`ls` or `search` command (neither moves the cwd); `exitLoop` models `done`,
`quit`, `q`, or an input-read failure — each of which breaks the loop. -/
inductive BrowseEvent where
  | cd (target : Nat) (ok : Bool) : BrowseEvent
  | lsOrSearch : BrowseEvent
  | exitLoop : BrowseEvent
deriving DecidableEq, Repr

/-- The process cwd after running the browser loop body on the events up to
the first exit. -/
def browseLoopCwd (cwd : Nat) : List BrowseEvent → Nat
  | [] => cwd
  | .cd target ok :: es => browseLoopCwd (if ok then target else cwd) es
  | .lsOrSearch :: es => browseLoopCwd cwd es
  | .exitLoop :: _ => cwd

/-- The app-target browsing stage of `block_settings_from_stdin`
(`src/suggestdialog.rs` lines 464-658), observed through the process cwd.
`utf8 d` tells whether directory `d`'s OS path converts to a UTF-8 string
(`Path::to_str` returning `Some`).  At entry, a non-UTF-8 original cwd
aborts before the loop (cwd untouched).  After the loop, the code reads the
current directory and converts it to a string; only when that conversion
succeeds does it reach the `env::set_current_dir(&original_curdir)` call —
on a non-UTF-8 final directory it returns early with the cwd NOT restored. -/
def browseFinalCwd (utf8 : Nat → Bool) (original : Nat)
    (events : List BrowseEvent) : Nat :=
  if utf8 original then
    let final := browseLoopCwd original events
    if utf8 final then original else final
  else original

/-- C8: the browser shell does NOT restore the original working directory on
every exit path.  On the normal paths (every reachable directory path valid
UTF-8) the cwd is restored; but in a session that changes into a directory
whose path is not valid UTF-8 and then exits, `current_dir().to_str()`
returns `None` and the code returns before the restore call, leaving the
process in the navigated directory (1) instead of the original (0). -/
theorem browse_cwd_not_restored_on_nonutf8_exit :
    (∀ (original : Nat) (events : List BrowseEvent),
      browseFinalCwd (fun _ => true) original events = original) ∧
    browseFinalCwd (fun n => n == 0) 0 [.cd 1 true, .exitLoop] = 1 ∧
    (1 : Nat) ≠ 0 := by
  refine ⟨?_, by decide, by decide⟩
  intro original events
  simp [browseFinalCwd]
